import Mathlib

/-!
Verification of the Realm/Swift model generator: a shallow embedding of
src/realm/language.ts (SwiftGenerator) and the RealmModelGenerator driver,
together with theorems about the generated output.

The output buffer is modelled as a list of logical lines (`List String`);
the final document is the newline-join of that list.  Indentation and the
scope stack affect only leading whitespace, which no statement below
depends on, so they are elided from the line model.
-/

namespace RealmCodegen

/-- Modelled from the spec: the JavaScript `String.prototype.split` with a
single newline separator, used by `SwiftGenerator.comment`.  Splits the
character list on every newline character; adjacent separators yield empty
segments, and the empty input yields one empty segment. -/
def splitLinesAux : List Char → List Char → List String
  | [], acc => [String.mk acc.reverse]
  | c :: cs, acc =>
    if c = '\n' then String.mk acc.reverse :: splitLinesAux cs []
    else splitLinesAux cs (c :: acc)

/-- Splits a string on newline characters, JavaScript `split('\n')` style. -/
def splitLines (s : String) : List String :=
  splitLinesAux s.data []

/-- Whitespace recognized by the modelled JavaScript `trim`. -/
def isTrimmedWS (c : Char) : Bool :=
  c == ' ' || c == '\t' || c == '\n' || c == '\r'

/-- Modelled from the spec: the JavaScript `String.prototype.trim`, used by
`SwiftGenerator.comment`; removes leading and trailing whitespace. -/
def trimString (s : String) : String :=
  String.mk (((s.data.dropWhile isTrimmedWS).reverse.dropWhile isTrimmedWS).reverse)

/-- Word separators for the modelled `camelCase` conversion. -/
def wordSep (c : Char) : Bool :=
  c == '_' || c == '-' || c == ' '

/-- Splits a character list at separator characters. -/
def splitWordsAux : List Char → List Char → List (List Char)
  | [], acc => [acc.reverse]
  | c :: cs, acc =>
    if wordSep c then acc.reverse :: splitWordsAux cs []
    else splitWordsAux cs (c :: acc)

/-- Modelled from the spec: the external `change-case` `camelCase`
utility (an out-of-scope naming collaborator per the spec, section 1);
separator-delimited words are joined with the first word lowercased and
subsequent words capitalized.  On an identifier that is already a single
lowercase word it is the identity, which is the only behavior the
statements below rely on. -/
def camelCase (s : String) : String :=
  match (splitWordsAux s.data []).filter (fun w => w ≠ []) with
  | [] => ""
  | w :: ws =>
    String.mk (w.map Char.toLower ++
      (ws.map (fun u =>
        match u with
        | [] => []
        | c :: cs => Char.toUpper c :: cs.map Char.toLower)).flatten)

/-- The fixed reserved-keyword set of src/realm/language.ts (lines 57 to 67),
in source order. -/
def reservedKeywords : List String :=
  ["associatedtype", "class", "deinit", "enum", "extension",
   "fileprivate", "func", "import", "init", "inout", "internal", "let", "open",
   "operator", "private", "protocol", "public", "static", "struct", "subscript",
   "typealias", "var", "break", "case", "continue", "default", "defer", "do",
   "else", "fallthrough", "for", "guard", "if", "in", "repeat", "return",
   "switch", "where", "while", "as", "Any", "catch", "false", "is", "nil",
   "rethrows", "super", "self", "Self", "throw", "throws", "true", "try",
   "associativity", "convenience", "dynamic", "didSet", "final", "get", "infix",
   "indirect", "lazy", "left", "mutating", "none", "nonmutating", "optional",
   "override", "postfix", "precedence", "prefix", "Protocol", "required", "right",
   "set", "Type", "unowned", "weak", "willSet"]

/-- src/realm/language.ts lines 69 to 75: wrap a reserved identifier in
backticks, otherwise return it unchanged. -/
def escapeIdentifierIfNeeded (identifier : String) : String :=
  if reservedKeywords.contains identifier then "`" ++ identifier ++ "`"
  else identifier

/-- The GraphQL type graph as distinguished by the generator: named object
types carry their declared field list (field name, field type, optional
description, in declared order); list and non-null are wrapper layers. -/
inductive GraphQLType where
  | scalar (name : String)
  | enum (name : String)
  | inputObject (name : String)
  | object (name : String) (fields : List (String × GraphQLType × Option String))
  | list (ofType : GraphQLType)
  | nonNull (ofType : GraphQLType)

/-- A field entry of an object type: name, type reference, description. -/
abbrev FieldDef := String × GraphQLType × Option String

/-- Field name projection. -/
def fieldDefName (f : FieldDef) : String := f.1

/-- Field type projection. -/
def fieldDefType (f : FieldDef) : GraphQLType := f.2.1

/-- Field description projection. -/
def fieldDefDescription (f : FieldDef) : Option String := f.2.2

/-- graphql-js `isOutputType`: true for every named type except input
object types, looking through wrappers. -/
def isOutputType : GraphQLType → Bool
  | .inputObject _ => false
  | .list t => isOutputType t
  | .nonNull t => isOutputType t
  | _ => true

/-- Modelled from the spec: `CodeGenerator.printOnNewline` of the external
printer collaborator (utilities/CodeGenerator, not under src); starts a
fresh output line holding the given text.  Never invoked with an empty
string by this generator. -/
def printOnNewline (s : String) (st : List String) : List String :=
  st ++ [s]

/-- Modelled from the spec: `CodeGenerator.printNewline`; terminates the
current line, producing a blank line between two printed lines. -/
def printNewline (st : List String) : List String :=
  st ++ [""]

/-- Modelled from the spec: `CodeGenerator.printNewlineIfNeeded`; inserts a
blank separator line before a new declaration unless the output is empty or
already ends in a blank line, and never duplicates blank lines. -/
def printNewlineIfNeeded (st : List String) : List String :=
  match st.getLast? with
  | none => st
  | some l => if l = "" then st else st ++ [""]

/-- Appends text to the final line of the buffer. -/
def appendToLast (s : String) : List String → List String
  | [] => [s]
  | [l] => [l ++ s]
  | l :: ls => l :: appendToLast s ls

/-- Modelled from the spec: `CodeGenerator.print`; appends text to the
current line, and does nothing when the text is empty (JavaScript
truthiness guard). -/
def printPart (s : String) (st : List String) : List String :=
  if s = "" then st else appendToLast s st

/-- Modelled from the spec: `CodeGenerator.withinBlock`; appends the opening
brace to the current line, runs the closure inside the block, then prints
the closing brace on its own line. -/
def withinBlock (closure : List String → List String) (st : List String) : List String :=
  printOnNewline "\x7d" (closure (appendToLast " \x7b" st))

/-- Modelled from the spec: the `join` printing utility
(utilities/printing, not under src); drops empty entries and joins the
rest with the separator. -/
def join (strs : List String) (sep : String) : String :=
  String.intercalate sep (strs.filter (fun s => s ≠ ""))

/-- Modelled from the spec: the `wrap` printing utility
(utilities/printing, not under src); surrounds a non-empty string with the
given opening and closing text, and collapses to empty otherwise. -/
def wrap (pre : String) (s : String) (post : String) : String :=
  if s = "" then "" else pre ++ s ++ post

/-- src/realm/language.ts lines 86 to 91: `SwiftGenerator.comment`.  When the
text is present and non-empty (JavaScript truthiness), splits it on
newlines and prints each line, trimmed, behind the documentation marker. -/
def comment (c : Option String) (st : List String) : List String :=
  match c with
  | none => st
  | some s =>
    if s = "" then st
    else (splitLines s).foldl (fun acc line => printOnNewline ("/// " ++ trimString line) acc) st

/-- src/realm/language.ts lines 100 to 113: `SwiftGenerator.namespaceDeclaration`.
A present non-empty namespace opens a documented public enum block around
the closure; otherwise the closure runs at top level. -/
def namespaceDeclaration (ns : Option String) (closure : List String → List String)
    (st : List String) : List String :=
  match ns with
  | some n =>
    if n = "" then closure st
    else
      let st1 := printNewlineIfNeeded st
      let st2 := printOnNewline ("/// " ++ n ++ " namespace") st1
      let st3 := printOnNewline ("public enum " ++ n) st2
      withinBlock closure st3
  | none => closure st

/-- src/realm/language.ts lines 115 to 122: `SwiftGenerator.classDeclaration`.
Prints the modifier-prefixed class header, the inheritance clause joined
from the optional superclass and the adopted protocols, and the brace
block around the closure.  The scope push and pop affect only
indentation, which the line model elides. -/
def classDeclaration (className : String) (modifiers : List String)
    (superClass : Option String) (adoptedProtocols : List String)
    (closure : List String → List String) (st : List String) : List String :=
  let st1 := printNewlineIfNeeded st
  let st2 := printOnNewline (wrap "" (join modifiers " ") " " ++ "class " ++ className) st1
  let st3 := printPart (wrap ": " (join (superClass.toList ++ adoptedProtocols) ", ") "") st2
  withinBlock closure st3

/-- src/realm/language.ts lines 134 to 233: `SwiftGenerator.propertyDeclaration`,
with the `Property` record flattened into the name, type-name and
description arguments.  Non-null wrappers recurse with the optional flag
cleared, list wrappers recurse with the list flag set (both drop the
description, as the source rebuilds the property without it), and the
terminal type selects the emitted declaration: the list form wins over
every terminal kind, object references and enums become nullable
references, scalars branch on the five built-in names with the ID case
additionally emitting the primaryKey override block, and every other
scalar name degrades to the visible UNCAUGHT SCALAR marker. -/
def propertyDeclaration (propertyName typeName : String) (description : Option String) :
    GraphQLType → Bool → Bool → List String → List String
  | .nonNull t, _, isList, st =>
    propertyDeclaration propertyName typeName none t false isList st
  | .list t, isOptional, _, st =>
    propertyDeclaration propertyName typeName none t isOptional true st
  | t, isOptional, isList, st =>
    let st1 := comment description st
    if isList then
      printOnNewline ("let " ++ propertyName ++ " = List<" ++ typeName ++ ">()") st1
    else
      match t with
      | .object _ _ =>
        printOnNewline ("dynamic var " ++ propertyName ++ ": " ++ typeName ++ "?") st1
      | .scalar n =>
        if n = "Boolean" then
          if isOptional then
            printOnNewline ("let " ++ propertyName ++ " = RealmOptional<Bool>()") st1
          else
            printOnNewline ("dynamic var " ++ propertyName ++ " = false") st1
        else if n = "Int" then
          if isOptional then
            printOnNewline ("let " ++ propertyName ++ " = RealmOptional<Int>()") st1
          else
            printOnNewline ("dynamic var " ++ propertyName ++ " = 0") st1
        else if n = "Float" then
          if isOptional then
            printOnNewline ("let " ++ propertyName ++ " = RealmOptional<Float>()") st1
          else
            printOnNewline ("dynamic var " ++ propertyName ++ ": Float = 0.0") st1
        else if n = "String" then
          if isOptional then
            printOnNewline ("dynamic var " ++ propertyName ++ ": String? = nil") st1
          else
            printOnNewline ("dynamic var " ++ propertyName ++ " = \"\"") st1
        else if n = "ID" then
          let st2 :=
            if isOptional then
              printOnNewline ("dynamic var " ++ propertyName ++ ": String? = nil") st1
            else
              printOnNewline ("dynamic var " ++ propertyName ++ " = \"\"") st1
          let st3 := printOnNewline "override public static func primaryKey() -> String?" st2
          withinBlock (fun s => printOnNewline ("return \"" ++ propertyName ++ "\"") s) st3
        else
          printOnNewline ("UNCAUGHT SCALAR " ++ n) st1
      | .enum _ =>
        printOnNewline ("dynamic var " ++ propertyName ++ ": String? = nil") st1
      | .inputObject _ => st1
      | .list _ => st1
      | .nonNull _ => st1

/-- The wrapper-unwrapping recursion of `propertyDeclaration`
(src/realm/language.ts lines 140 to 162) extracted as the pure Type
Classifier of spec section 4.2: peel non-null wrappers clearing the
optional flag, peel list wrappers setting the list flag while preserving
the accumulated optional flag, and return the innermost type with the
accumulated flags. -/
def classify : GraphQLType → Bool → Bool → GraphQLType × Bool × Bool
  | .nonNull t, _, isList => classify t false isList
  | .list t, isOptional, _ => classify t isOptional true
  | t, isOptional, isList => (t, isOptional, isList)

/-- The fully unwrapped innermost type beneath all wrapper layers. -/
def innermost : GraphQLType → GraphQLType
  | .nonNull t => innermost t
  | .list t => innermost t
  | t => t

/-- Whether the wrapper chain of a type contains at least one list layer. -/
def hasListWrapper : GraphQLType → Bool
  | .list _ => true
  | .nonNull t => hasListWrapper t
  | _ => false

/-- Modelled from the spec: the `builtInScalarMap` of realm/helpers.ts
(imported by src/realm/language.ts but not under src); the mapping of the
five built-in GraphQL scalar names to their Swift type names. -/
def builtInScalarMap (n : String) : Option String :=
  if n = "String" then some "String"
  else if n = "Int" then some "Int"
  else if n = "Float" then some "Float"
  else if n = "Boolean" then some "Bool"
  else if n = "ID" then some "String"
  else none

/-- Modelled from the spec: `Helpers.rootTypeNameFromGraphQLType` of
realm/helpers.ts (not under src); per the spec decision table the element
type name of a declaration is the declared type name of the innermost
kind, with built-in scalar names mapped to Swift names. -/
def rootTypeNameFromGraphQLType : GraphQLType → String
  | .nonNull t => rootTypeNameFromGraphQLType t
  | .list t => rootTypeNameFromGraphQLType t
  | .scalar n => (builtInScalarMap n).getD n
  | .object n _ => n
  | .enum n => n
  | .inputObject n => n

/-- Checks whether the second string is a prefix of the first, modelling
the JavaScript `String.prototype.startsWith`. -/
def strStartsWith (s p : String) : Bool :=
  p.data.isPrefixOf s.data

/-- RealmModelGenerator.generateFieldDeclaration (driver source lines 88 to
97): prints the field description when present, then the property
declaration for the camel-cased field name, the root type name, and the
field type, with the default optional and list flags. -/
def generateFieldDeclaration (f : FieldDef) (st : List String) : List String :=
  let st1 :=
    match fieldDefDescription f with
    | some d => comment (some d) st
    | none => st
  propertyDeclaration (camelCase (fieldDefName f))
    (rootTypeNameFromGraphQLType (fieldDefType f)) none (fieldDefType f) true false st1

/-- RealmModelGenerator.generateOutputObjectForType (driver source lines 70
to 86): one public final class adopting Object, named with the empty class
prefix, holding one field declaration per field in declared order. -/
def generateOutputObjectForType (name : String)
    (fields : List FieldDef) (st : List String) : List String :=
  classDeclaration ("" ++ name) ["public", "final"] none ["Object"]
    (fun s => fields.foldl (fun acc f => generateFieldDeclaration f acc) s) st

/-- RealmModelGenerator.realmTypeDeclarationType (driver source lines 59 to
68): only object types usable as output whose name does not start with the
double underscore introspection marker produce a class declaration. -/
def realmTypeDeclarationType (t : GraphQLType) (st : List String) : List String :=
  match t with
  | .object name fields =>
    if isOutputType (.object name fields) then
      if !(strStartsWith name "__") then generateOutputObjectForType name fields st
      else st
    else st
  | _ => st

/-- RealmModelGenerator.fileHeader (driver source lines 51 to 57): the
auto-generated warning, a blank line, and the three framework imports. -/
def fileHeader (st : List String) : List String :=
  let st1 := printOnNewline "//  This file was automatically generated and should not be edited." st
  let st2 := printNewline st1
  let st3 := printOnNewline "import Apollo" st2
  let st4 := printOnNewline "import Realm" st3
  printOnNewline "import RealmSwift" st4

/-- The generator options structure (driver source lines 23 to 27). -/
structure Options where
  namespaceOpt : Option String := none
  passthroughCustomScalars : Bool := false
  customScalarsPrefix : Option String := none

/-- generateSource (driver source lines 29 to 41): file header, then the
optional namespace scope around one realm type declaration per entry of
the schema type map, in type-map order. -/
def generateSource (typeMap : List GraphQLType) (options : Options) : List String :=
  let st := fileHeader []
  namespaceDeclaration options.namespaceOpt
    (fun s => typeMap.foldl (fun acc t => realmTypeDeclarationType t acc) s) st

/-- The accumulated output document: the newline join of the line buffer. -/
def generatedText (typeMap : List GraphQLType) (options : Options) : String :=
  String.intercalate "\n" (generateSource typeMap options)

/-- The lines contributed by one comment text: one marker-prefixed trimmed
line per newline-separated segment, nothing for absent or empty text. -/
def commentLines : Option String → List String
  | none => []
  | some s => if s = "" then [] else (splitLines s).map (fun l => "/// " ++ trimString l)

/-- The lines contributed by one field declaration, emitted from a fresh
buffer. -/
def fieldDeclLines (f : FieldDef) : List String :=
  generateFieldDeclaration f []

lemma printOnNewline_append (s : String) (a b : List String) :
    printOnNewline s (a ++ b) = a ++ printOnNewline s b := by
  simp [printOnNewline]

lemma appendToLast_cons_of_ne (s x : String) (ls : List String) (h : ls ≠ []) :
    appendToLast s (x :: ls) = x :: appendToLast s ls := by
  cases ls with
  | nil => exact absurd rfl h
  | cons y ys => rfl

lemma appendToLast_append (s : String) (a b : List String) (h : b ≠ []) :
    appendToLast s (a ++ b) = a ++ appendToLast s b := by
  induction a with
  | nil => rfl
  | cons x xs ih =>
    have hne : xs ++ b ≠ [] := by
      cases b with
      | nil => exact absurd rfl h
      | cons y ys => simp
    rw [List.cons_append, appendToLast_cons_of_ne s x (xs ++ b) hne, ih, List.cons_append]

lemma appendToLast_concat (s x : String) (a : List String) :
    appendToLast s (a ++ [x]) = a ++ [x ++ s] := by
  rw [appendToLast_append s a [x] (by simp)]
  rfl

lemma foldl_printOnNewline (g : String → String) (xs : List String) (st : List String) :
    xs.foldl (fun acc line => printOnNewline (g line) acc) st = st ++ xs.map g := by
  induction xs generalizing st with
  | nil => simp
  | cons h tl ih => rw [List.foldl_cons, ih]; simp [printOnNewline]

lemma comment_eq (c : Option String) (st : List String) :
    comment c st = st ++ commentLines c := by
  cases c with
  | none => simp [comment, commentLines]
  | some s =>
    by_cases h : s = ""
    · simp [comment, commentLines, h]
    · simp [comment, commentLines, h, foldl_printOnNewline]

lemma withinBlock_concat (ret : String) (a : List String) (x : String) :
    withinBlock (fun s => printOnNewline ret s) (a ++ [x])
      = a ++ [x ++ " \x7b", ret, "\x7d"] := by
  simp [withinBlock, appendToLast_concat, printOnNewline]

lemma id_block_eq (pn d : String) (st : List String) :
    withinBlock (fun s => s ++ ["return \"" ++ pn ++ "\""])
      (st ++ [d, "override public static func primaryKey() -> String?"])
      = st ++ [d, "override public static func primaryKey() -> String? \x7b",
               "return \"" ++ pn ++ "\"", "\x7d"] := by
  unfold withinBlock printOnNewline
  rw [appendToLast_append _ st _ (by simp)]
  simp [appendToLast]

lemma withinBlock_push_append (ret : String) (a b : List String) (h : b ≠ []) :
    withinBlock (fun s => s ++ [ret]) (a ++ b)
      = a ++ withinBlock (fun s => s ++ [ret]) b := by
  simp [withinBlock, printOnNewline, appendToLast_append _ a b h, List.append_assoc]

lemma propertyDeclaration_shift (pn tn : String) :
    ∀ (t : GraphQLType) (desc : Option String) (o l : Bool) (st : List String),
      propertyDeclaration pn tn desc t o l st
        = st ++ propertyDeclaration pn tn desc t o l []
  | .nonNull u, desc, o, l, st => by
    simp only [propertyDeclaration]
    exact propertyDeclaration_shift pn tn u none false l st
  | .list u, desc, o, l, st => by
    simp only [propertyDeclaration]
    exact propertyDeclaration_shift pn tn u none o true st
  | .scalar n, desc, o, l, st => by
    simp only [propertyDeclaration, comment_eq, List.nil_append]
    split_ifs <;>
      simp [printOnNewline, List.append_assoc, withinBlock_push_append]
  | .enum n, desc, o, l, st => by
    simp only [propertyDeclaration, comment_eq, List.nil_append]
    split_ifs <;> simp [printOnNewline, List.append_assoc]
  | .inputObject n, desc, o, l, st => by
    simp only [propertyDeclaration, comment_eq, List.nil_append]
    split_ifs <;> simp [printOnNewline, List.append_assoc]
  | .object name fields, desc, o, l, st => by
    simp only [propertyDeclaration, comment_eq, List.nil_append]
    split_ifs <;> simp [printOnNewline, List.append_assoc]

lemma generateFieldDeclaration_shift (f : FieldDef) (st : List String) :
    generateFieldDeclaration f st = st ++ fieldDeclLines f := by
  unfold fieldDeclLines generateFieldDeclaration
  cases hd : fieldDefDescription f with
  | none =>
    simp only [hd]
    exact propertyDeclaration_shift _ _ _ _ _ _ _
  | some d =>
    simp only [hd, comment_eq]
    rw [propertyDeclaration_shift _ _ _ _ _ _ (st ++ commentLines (some d)),
      propertyDeclaration_shift _ _ _ _ _ _ (([] : List String) ++ commentLines (some d))]
    simp [List.append_assoc]

lemma foldl_generateFieldDeclaration (fs : List FieldDef) (st : List String) :
    fs.foldl (fun acc f => generateFieldDeclaration f acc) st
      = st ++ (fs.map fieldDeclLines).flatten := by
  induction fs generalizing st with
  | nil => simp
  | cons f tl ih =>
    rw [List.foldl_cons, generateFieldDeclaration_shift f st, ih]
    simp [List.append_assoc]

lemma class_header_eq (name : String) :
    ((("public final " ++ "class ") ++ ("" ++ name)) ++ ": Object") ++ " \x7b"
      = "public final class " ++ name ++ ": Object \x7b" := by
  have h0 : "public final " ++ "class " = "public final class " := rfl
  have h1 : ("" : String) ++ name = name := rfl
  have h2 : (": Object" : String) ++ " \x7b" = ": Object \x7b" := rfl
  rw [h0, h1, String.append_assoc, h2, String.append_assoc]

lemma generateOutputObjectForType_eq (name : String) (fields : List FieldDef)
    (st : List String) :
    generateOutputObjectForType name fields st
      = printNewlineIfNeeded st
        ++ ["public final class " ++ name ++ ": Object \x7b"]
        ++ (fields.map fieldDeclLines).flatten ++ ["\x7d"] := by
  unfold generateOutputObjectForType classDeclaration
  simp only [show wrap "" (join ["public", "final"] " ") " " = "public final " from rfl,
    show wrap ": " (join ((none : Option String).toList ++ ["Object"]) ", ") "" = ": Object"
      from rfl,
    printPart, printOnNewline, withinBlock,
    if_neg (show ¬((": Object" : String) = "") by decide),
    appendToLast_concat, foldl_generateFieldDeclaration, class_header_eq]

lemma propertyDeclaration_list_form (pn tn : String) :
    ∀ (u : GraphQLType) (o : Bool) (st : List String),
      propertyDeclaration pn tn none u o true st
        = st ++ ["let " ++ pn ++ " = List<" ++ tn ++ ">()"]
  | .nonNull v, _, st => by
    simp only [propertyDeclaration]
    exact propertyDeclaration_list_form pn tn v false st
  | .list v, o, st => by
    simp only [propertyDeclaration]
    exact propertyDeclaration_list_form pn tn v o st
  | .scalar n, o, st => by simp [propertyDeclaration, comment, printOnNewline]
  | .enum n, o, st => by simp [propertyDeclaration, comment, printOnNewline]
  | .inputObject n, o, st => by simp [propertyDeclaration, comment, printOnNewline]
  | .object name fields, o, st => by simp [propertyDeclaration, comment, printOnNewline]

lemma propertyDeclaration_id_form (pn tn : String) :
    ∀ (u : GraphQLType), innermost u = .scalar "ID" → hasListWrapper u = false →
      ∀ (o : Bool) (st : List String),
        ∃ d, (d = "dynamic var " ++ pn ++ ": String? = nil" ∨
              d = "dynamic var " ++ pn ++ " = \"\"") ∧
          propertyDeclaration pn tn none u o false st
            = st ++ [d, "override public static func primaryKey() -> String? \x7b",
                     "return \"" ++ pn ++ "\"", "\x7d"]
  | .nonNull v, hin, hnl, _, st => by
    simp only [innermost] at hin
    simp only [hasListWrapper] at hnl
    simp only [propertyDeclaration]
    exact propertyDeclaration_id_form pn tn v hin hnl false st
  | .list v, _, hnl, _, _ => by simp [hasListWrapper] at hnl
  | .scalar n, hin, _, o, st => by
    have hn : n = "ID" := by simpa [innermost] using hin
    subst hn
    cases o with
    | true =>
      refine ⟨"dynamic var " ++ pn ++ ": String? = nil", Or.inl rfl, ?_⟩
      simp [propertyDeclaration, comment, printOnNewline, id_block_eq]
    | false =>
      refine ⟨"dynamic var " ++ pn ++ " = \"\"", Or.inr rfl, ?_⟩
      simp [propertyDeclaration, comment, printOnNewline, id_block_eq]
  | .enum n, hin, _, _, _ => by simp [innermost] at hin
  | .inputObject n, hin, _, _, _ => by simp [innermost] at hin
  | .object name fields, hin, _, _, _ => by simp [innermost] at hin

lemma uncaught_scalar_line (n pn tn : String) (st : List String)
    (h1 : n ≠ "Boolean") (h2 : n ≠ "Int") (h3 : n ≠ "Float")
    (h4 : n ≠ "String") (h5 : n ≠ "ID") :
    propertyDeclaration pn tn none (.scalar n) true false st
      = st ++ ["UNCAUGHT SCALAR " ++ n] := by
  simp [propertyDeclaration, comment, printOnNewline, h1, h2, h3, h4, h5]

/-- C1, counterexample: the claim asserts the primaryKey override is
emitted for every field whose innermost type is the ID scalar, including
when the ID is wrapped in list layers.  For the field type list(ID) the
list branch of propertyDeclaration wins before the scalar switch is
reached, so only the collection declaration is emitted and no primaryKey
override appears in the output. -/
theorem id_primary_key_cex :
    propertyDeclaration "id" "String" none (.list (.scalar "ID")) true false []
      = ["let id = List<String>()"] ∧
    ¬ ("override public static func primaryKey() -> String? \x7b"
        ∈ propertyDeclaration "id" "String" none (.list (.scalar "ID")) true false []) :=
  ⟨rfl, by decide⟩

/-- C1 (amended): for every field whose innermost type is the ID scalar
and whose wrapper chain contains no list layer, the emitted declaration is
the string-typed property followed by exactly one primaryKey override
block, regardless of the nesting of non-null wrappers (the nullability of
the field). -/
theorem id_primary_key_field (pn tn : String) (t : GraphQLType) (st : List String)
    (hin : innermost t = .scalar "ID") (hnl : hasListWrapper t = false) :
    ∃ d, (d = "dynamic var " ++ pn ++ ": String? = nil" ∨
          d = "dynamic var " ++ pn ++ " = \"\"") ∧
      propertyDeclaration pn tn none t true false st
        = st ++ [d, "override public static func primaryKey() -> String? \x7b",
                 "return \"" ++ pn ++ "\"", "\x7d"] :=
  propertyDeclaration_id_form pn tn t hin hnl true st

/-- Witness for C1 (amended) at the concrete field type nonNull(ID). -/
theorem id_primary_key_field_witness :
    innermost (GraphQLType.nonNull (.scalar "ID")) = .scalar "ID" ∧
    hasListWrapper (GraphQLType.nonNull (.scalar "ID")) = false ∧
    ∃ d, (d = "dynamic var " ++ "id" ++ ": String? = nil" ∨
          d = "dynamic var " ++ "id" ++ " = \"\"") ∧
      propertyDeclaration "id" "String" none (.nonNull (.scalar "ID")) true false []
        = [] ++ [d, "override public static func primaryKey() -> String? \x7b",
                 "return \"" ++ "id" ++ "\"", "\x7d"] :=
  ⟨rfl, rfl, id_primary_key_field "id" "String" (.nonNull (.scalar "ID")) [] rfl rfl⟩

/-- C2: every field whose type is wrapped in at least one list layer, at
any nesting position among the wrappers, emits exactly the
empty-initialized collection declaration, independent of the element kind,
the description, and the accumulated optionality flags. -/
theorem list_field_collection_form (pn tn : String) :
    ∀ (t : GraphQLType), hasListWrapper t = true →
      ∀ (desc : Option String) (o l : Bool) (st : List String),
        propertyDeclaration pn tn desc t o l st
          = st ++ ["let " ++ pn ++ " = List<" ++ tn ++ ">()"]
  | .nonNull u, h, _, _, l, st => by
    simp only [hasListWrapper] at h
    simp only [propertyDeclaration]
    exact list_field_collection_form pn tn u h none false l st
  | .list u, _, _, o, _, st => by
    simp only [propertyDeclaration]
    exact propertyDeclaration_list_form pn tn u o st
  | .scalar n, h, _, _, _, _ => by simp [hasListWrapper] at h
  | .enum n, h, _, _, _, _ => by simp [hasListWrapper] at h
  | .inputObject n, h, _, _, _, _ => by simp [hasListWrapper] at h
  | .object name fields, h, _, _, _, _ => by simp [hasListWrapper] at h

/-- Witness for C2 at the concrete field type list(String). -/
theorem list_field_collection_form_witness :
    hasListWrapper (GraphQLType.list (.scalar "String")) = true ∧
    propertyDeclaration "tags" "String" none (.list (.scalar "String")) true false []
      = [] ++ ["let " ++ "tags" ++ " = List<" ++ "String" ++ ">()"] :=
  ⟨rfl, list_field_collection_form "tags" "String" (.list (.scalar "String")) rfl
    none true false []⟩

/-- C3, counterexample: the claim asserts some type classifies differently
under the shapes nonNull(list(nonNull(T))) and nonNull(list(T)).  In fact
no such type exists: the outer non-null already clears the optional flag
before the list is unwrapped, so the inner non-null changes nothing and
the two shapes classify identically for every type. -/
theorem classify_unwrap_order_cex :
    ¬ ∃ T : GraphQLType,
        classify (.nonNull (.list (.nonNull T))) true false
          ≠ classify (.nonNull (.list T)) true false :=
  fun h => h.elim (fun _ hT => hT rfl)

/-- C3 (amended): the two-step unwrap order with the preserved accumulated
optional flag is observable on nullable lists: list(nonNull(String)) and
list(String) classify the inner element with different optional flags,
while the non-null list shapes of the original claim classify
identically. -/
theorem classify_unwrap_order_observable :
    classify (.list (.nonNull (.scalar "String"))) true false
      = (.scalar "String", false, true) ∧
    classify (.list (.scalar "String")) true false
      = (.scalar "String", true, true) ∧
    classify (.list (.nonNull (.scalar "String"))) true false
      ≠ classify (.list (.scalar "String")) true false := by
  refine ⟨rfl, rfl, fun h => ?_⟩
  exact Bool.noConfusion (congrArg (fun p => p.2.1) h)

/-- C4: a class declaration is produced exactly for object types whose
name does not start with the double underscore introspection marker; the
class keeps the schema type name, carries the public and final modifiers,
adopts the Object protocol, and contains the field declarations in
declared order; every other type map entry leaves the output unchanged. -/
theorem realm_type_declaration_characterization (t : GraphQLType) (st : List String) :
    realmTypeDeclarationType t st =
      match t with
      | .object name fields =>
        if strStartsWith name "__" then st
        else
          printNewlineIfNeeded st
            ++ ["public final class " ++ name ++ ": Object \x7b"]
            ++ (fields.map fieldDeclLines).flatten ++ ["\x7d"]
      | _ => st := by
  cases t with
  | object name fields =>
    by_cases h : strStartsWith name "__"
    · simp [realmTypeDeclarationType, isOutputType, h]
    · simp [realmTypeDeclarationType, isOutputType, h, generateOutputObjectForType_eq]
  | scalar n => rfl
  | enum n => rfl
  | inputObject n => rfl
  | list u => rfl
  | nonNull u => rfl

/-- C5: a non-null Boolean field emits the non-optional form with default
false, and a bare Boolean field emits the boxed optional form. -/
theorem bool_field_declaration_forms (pn tn : String) (st : List String) :
    propertyDeclaration pn tn none (.nonNull (.scalar "Boolean")) true false st
      = st ++ ["dynamic var " ++ pn ++ " = false"] ∧
    propertyDeclaration pn tn none (.scalar "Boolean") true false st
      = st ++ ["let " ++ pn ++ " = RealmOptional<Bool>()"] := by
  constructor <;> simp [propertyDeclaration, comment, printOnNewline]

/-- C6: a scalar field whose name matches none of the five built-in
scalars produces exactly the visible inline marker naming that scalar, and
generation of a sibling field after it in the same type still completes
normally, appending the sibling declaration after the marker. -/
theorem uncaught_scalar_marker (n pn tn : String) (st : List String)
    (h1 : n ≠ "Boolean") (h2 : n ≠ "Int") (h3 : n ≠ "Float")
    (h4 : n ≠ "String") (h5 : n ≠ "ID") :
    propertyDeclaration pn tn none (.scalar n) true false st
      = st ++ ["UNCAUGHT SCALAR " ++ n] ∧
    [("bad", GraphQLType.scalar n, (none : Option String)),
     ("ok", GraphQLType.scalar "String", (none : Option String))].foldl
        (fun acc f => generateFieldDeclaration f acc) st
      = st ++ ["UNCAUGHT SCALAR " ++ n, "dynamic var ok: String? = nil"] := by
  refine ⟨uncaught_scalar_line n pn tn st h1 h2 h3 h4 h5, ?_⟩
  simp only [List.foldl_cons, List.foldl_nil]
  rw [show generateFieldDeclaration ("bad", GraphQLType.scalar n, none) st
        = propertyDeclaration "bad" ((builtInScalarMap n).getD n) none (.scalar n)
            true false st from rfl]
  rw [uncaught_scalar_line n "bad" ((builtInScalarMap n).getD n) st h1 h2 h3 h4 h5]
  rw [show ∀ s, generateFieldDeclaration ("ok", GraphQLType.scalar "String", none) s
        = propertyDeclaration "ok" "String" none (.scalar "String") true false s
      from fun s => rfl]
  simp [propertyDeclaration, comment, printOnNewline]

/-- Witness for C6 at the concrete unrecognized scalar name DateTime. -/
theorem uncaught_scalar_marker_witness :
    propertyDeclaration "custom" "DateTime" none (.scalar "DateTime") true false []
      = ["UNCAUGHT SCALAR DateTime"] ∧
    [("bad", GraphQLType.scalar "DateTime", (none : Option String)),
     ("ok", GraphQLType.scalar "String", (none : Option String))].foldl
        (fun acc f => generateFieldDeclaration f acc) []
      = ["UNCAUGHT SCALAR DateTime", "dynamic var ok: String? = nil"] :=
  uncaught_scalar_marker "DateTime" "custom" "DateTime" []
    (by decide) (by decide) (by decide) (by decide) (by decide)

/-- C7, counterexample: the claim asserts reserved display names appear
backtick-escaped in property declarations.  For a field named class the
camel-cased name is the reserved word class, yet the emitted declaration
uses it verbatim with no backtick anywhere, even though
escapeIdentifierIfNeeded would have wrapped it. -/
theorem property_name_escaping_cex :
    reservedKeywords.contains (camelCase "class") = true ∧
    generateFieldDeclaration ("class", GraphQLType.scalar "String", none) []
      = ["dynamic var class: String? = nil"] ∧
    ("dynamic var class: String? = nil").data.contains (Char.ofNat 96) = false ∧
    escapeIdentifierIfNeeded (camelCase "class") = "`class`" :=
  ⟨by decide, rfl, by decide, by decide⟩

/-- C7 (amended): property declarations print the camel-cased field name
verbatim, without applying the reserved-word escape; the escape function
itself does wrap every reserved word in backticks, but it is not invoked
on the property declaration path. -/
theorem property_name_unescaped (fname : String) (st : List String) :
    generateFieldDeclaration (fname, GraphQLType.scalar "String", none) st
      = st ++ ["dynamic var " ++ camelCase fname ++ ": String? = nil"] ∧
    ∀ s, reservedKeywords.contains s = true →
      escapeIdentifierIfNeeded s = "`" ++ s ++ "`" := by
  constructor
  · simp [generateFieldDeclaration, fieldDefDescription, fieldDefName, fieldDefType,
      propertyDeclaration, comment, printOnNewline, rootTypeNameFromGraphQLType,
      builtInScalarMap]
  · intro s hs
    have hmem : s ∈ reservedKeywords := List.mem_of_elem_eq_true hs
    simp [escapeIdentifierIfNeeded, hmem]

/-- Witness for C7 (amended) at the reserved field name repeat. -/
theorem property_name_unescaped_witness :
    generateFieldDeclaration ("repeat", GraphQLType.scalar "String", none) []
      = [] ++ ["dynamic var " ++ camelCase "repeat" ++ ": String? = nil"] ∧
    escapeIdentifierIfNeeded "repeat" = "`" ++ "repeat" ++ "`" :=
  ⟨(property_name_unescaped "repeat" []).1,
   (property_name_unescaped "repeat" []).2 "repeat" (by decide)⟩

/-- C8, counterexample: the claim asserts the empty type map yields only
the file header for every options value.  With the namespace option set,
the namespace block is emitted around the empty body, so the output is
strictly larger than the header. -/
theorem empty_type_map_header_cex :
    generateSource [] { namespaceOpt := some "API" }
      = ["//  This file was automatically generated and should not be edited.", "",
         "import Apollo", "import Realm", "import RealmSwift", "",
         "/// API namespace", "public enum API \x7b", "\x7d"] ∧
    generateSource [] { namespaceOpt := some "API" }
      ≠ ["//  This file was automatically generated and should not be edited.", "",
         "import Apollo", "import Realm", "import RealmSwift"] :=
  ⟨rfl, by decide⟩

/-- C8 (amended): with the namespace option unset, an empty type map
yields exactly the fixed file header, for every value of the remaining
options. -/
theorem empty_type_map_header_only (p : Bool) (c : Option String) :
    generateSource []
        { namespaceOpt := none, passthroughCustomScalars := p, customScalarsPrefix := c }
      = ["//  This file was automatically generated and should not be edited.", "",
         "import Apollo", "import Realm", "import RealmSwift"] ∧
    generatedText []
        { namespaceOpt := none, passthroughCustomScalars := p, customScalarsPrefix := c }
      = "//  This file was automatically generated and should not be edited.\n\nimport Apollo\nimport Realm\nimport RealmSwift" :=
  ⟨rfl, rfl⟩

/-- C9, counterexample: the claim asserts lines that are empty after
trimming produce no output.  The comment text consisting of one newline
splits into two empty lines, and each produces a bare marker line, so the
output is not empty. -/
theorem comment_blank_line_cex :
    comment (some "\n") [] = ["/// ", "/// "] ∧ comment (some "\n") [] ≠ [] :=
  ⟨rfl, by decide⟩

/-- C9 (amended): for present non-empty text, the comment operation splits
on line breaks and prints every resulting line trimmed behind the marker,
including lines that are empty after trimming, which produce the bare
marker; absent text, and the empty text (falsy in the source), print
nothing. -/
theorem comment_characterization (st : List String) :
    comment none st = st ∧ comment (some "") st = st ∧
    ∀ s, s ≠ "" →
      comment (some s) st
        = st ++ (splitLines s).map (fun l => "/// " ++ trimString l) := by
  refine ⟨rfl, rfl, fun s hs => ?_⟩
  simp [comment, hs, foldl_printOnNewline]

/-- Witness for C9 (amended) at a concrete three-line comment text. -/
theorem comment_characterization_witness :
    ("a\n\nb" ≠ "") ∧
    comment (some "a\n\nb") []
      = [] ++ (splitLines "a\n\nb").map (fun l => "/// " ++ trimString l) :=
  ⟨by decide, (comment_characterization []).2.2 "a\n\nb" (by decide)⟩

/-- C10: the identifier escape is idempotent, because a backtick-wrapped
result starts with a backtick while no member of the reserved-keyword set
does, so an escaped identifier is never itself reserved. -/
theorem escape_identifier_idempotent (s : String) :
    escapeIdentifierIfNeeded (escapeIdentifierIfNeeded s)
      = escapeIdentifierIfNeeded s := by
  by_cases h : s ∈ reservedKeywords
  · have hne : ("`" ++ s ++ "`") ∉ reservedKeywords := by
      intro hmem
      have hfirst : ∀ x ∈ reservedKeywords, x.data.head? ≠ some (Char.ofNat 96) := by decide
      apply hfirst _ hmem
      have hgrave : ("`" : String).data = [Char.ofNat 96] := by decide
      have hdata : ("`" ++ s ++ "`").data
          = Char.ofNat 96 :: (s.data ++ ("`" : String).data) := by
        rw [String.data_append, String.data_append, hgrave]
        simp
      rw [hdata]
      rfl
    simp [escapeIdentifierIfNeeded, h, hne]
  · simp [escapeIdentifierIfNeeded, h]

end RealmCodegen
